import Mathlib

/-!
# Verification of the Financial Report Generator front end

Shallow embedding of the client logic in `src/frontend/src/App.tsx`:

* the file-choice validator `handleFileChange` together with `formatBytes`
  and the `MAX_FILE_SIZE` constant;
* the upload workflow `handleSubmit`: missing-file guard, error-body
  classification for failed conversion responses, and the success path that
  derives the download file name from the `Content-Disposition` header;
* the pointer-trail animation step (`animate` / its loop body).

JavaScript numbers are modelled as exact rationals (`ℚ`) for the animation
arithmetic and as `Nat`/`Int` where the code only ever handles integral
values (file sizes, HTTP status codes, timestamps).  JSON payloads are
modelled by an inductive `Json` type, and the `fetch` response object by a
structure recording the results of the operations the code performs on it
(`.json()`, `.text()`, `.blob()`, header lookups).

The JavaScript string primitives the code relies on (`toLowerCase`,
`endsWith`, `trim`, `includes`, `split`, `replace`) are given kernel-
reducible list-based definitions below, so that every concrete run of the
embedded handlers can be checked by `decide`.
-/

namespace FRG

/-- JavaScript `String.prototype.toLowerCase` (the file names involved are ASCII). -/
def toLowerStr (s : String) : String := ⟨s.data.map Char.toLower⟩

/-- JavaScript `String.prototype.endsWith`. -/
def endsWithStr (s post : String) : Bool := post.data.isSuffixOf s.data

/-- JavaScript `String.prototype.trim`: strip leading and trailing whitespace. -/
def trimStr (s : String) : String :=
  ⟨(((s.data.dropWhile Char.isWhitespace).reverse).dropWhile Char.isWhitespace).reverse⟩

/-- JavaScript `String.prototype.includes`: `pat` occurs contiguously in `s`. -/
def strContains (s pat : String) : Bool :=
  (List.range (s.data.length + 1)).any (fun i => pat.data.isPrefixOf (s.data.drop i))

/-- Fuel-driven worker for `String.prototype.split`: scan the character
list, emitting an accumulated chunk each time the separator occurs.  The
fuel is only there to make the recursion structural; `splitOnStr` passes
enough fuel that it is never exhausted. -/
def splitGo (sep : List Char) : Nat → List Char → List Char → List (List Char)
  | 0, acc, l => [acc.reverse ++ l]
  | _ + 1, acc, [] => [acc.reverse]
  | fuel + 1, acc, c :: rest =>
    if sep.isPrefixOf (c :: rest) then
      acc.reverse :: splitGo sep fuel [] ((c :: rest).drop sep.length)
    else
      splitGo sep fuel (c :: acc) rest

/-- JavaScript `String.prototype.split` with a non-empty string separator. -/
def splitOnStr (s sep : String) : List String :=
  (splitGo sep.data (s.data.length + 1) [] s.data).map (fun l => ⟨l⟩)

/-- JavaScript `String.prototype.replace(/c/g, "")` for a single character `c`:
remove every occurrence. -/
def removeAllChar (c : Char) (s : String) : String :=
  ⟨s.data.filter (fun d => d ≠ c)⟩

/-- The constant `MAX_FILE_SIZE = 15 * 1024 * 1024` (App.tsx line 3). -/
def MAX_FILE_SIZE : Nat := 15 * 1024 * 1024

/-- Fuel-driven base-1024 logarithm: `log1024Go fuel n` is
`⌊log₁₀₂₄ n⌋` whenever `n ≤ fuel` (structural so that it reduces). -/
def log1024Go : Nat → Nat → Nat
  | 0, _ => 0
  | fuel + 1, n => if n < 1024 then 0 else log1024Go fuel (n / 1024) + 1

/-- Model of `Math.floor(Math.log bytes / Math.log 1024)` for a positive integer
byte count: the exact floor of the base-1024 logarithm.  (The code only
evaluates this away from powers of 1024, where the floating-point quotient
agrees with the exact value.) -/
def log1024 (n : Nat) : Nat := log1024Go n n

/-- Render the exact quotient `num / den` (nonnegative, `den ≠ 0`) with
exactly two decimal places, rounding to nearest as JavaScript's
`Number.prototype.toFixed(2)` does on the values the code feeds it:
the hundredths count is `⌊num * 100 / den + 1/2⌋ = (200*num + den) / (2*den)`
in integer arithmetic. -/
def toFixed2 (num den : Nat) : String :=
  let c := (200 * num + den) / (2 * den)
  let whole := c / 100
  let frac := c % 100
  toString whole ++ "." ++ (if frac < 10 then "0" else "") ++ toString frac

/-- The helper `formatBytes` (App.tsx lines 22-28).  The index
`Math.floor(Math.log(bytes) / Math.log(1024))` is modelled by the exact
`log1024`; the quotient `bytes / 1024 ^ i` is kept exact and rendered
with `toFixed(2)`.  An index beyond the `sizes` array would render
JavaScript's `undefined`. -/
def formatBytes (bytes : Nat) : String :=
  if bytes = 0 then "0 B"
  else
    let i := log1024 bytes
    toFixed2 bytes (1024 ^ i) ++ " " ++
      (["B", "KB", "MB", "GB"].getD i "undefined")

/-- The `File` values the handlers inspect: name and size in bytes. -/
structure FileData where
  name : String
  size : Nat
deriving DecidableEq, Repr

/-- Result of one `handleFileChange` call: the `selectedFile` state after
the call (the handler only calls `setSelectedFile` on the accept and
no-file paths, so on a rejection the previous value persists), the `error`
and `successMessage` states after the call, and whether the raw input
control was reset (`event.target.value = ""`). -/
structure ChooseResult where
  selectedFile : Option FileData
  error : Option String
  successMessage : Option String
  inputReset : Bool
deriving DecidableEq, Repr

/-- The handler `handleFileChange` (App.tsx lines 88-110).  `prev` is the
`selectedFile` state when the event fires; `file` is
`event.target.files?.[0]`. -/
def handleFileChange (prev : Option FileData) (file : Option FileData) :
    ChooseResult :=
  match file with
  | none => ⟨none, none, none, false⟩
  | some f =>
    if !(endsWithStr (toLowerStr f.name) ".xml") &&
        !(endsWithStr (toLowerStr f.name) ".xbrl") then
      ⟨prev, some "Only .xml or .xbrl files are supported.", none, true⟩
    else if f.size > MAX_FILE_SIZE then
      ⟨prev, some ("File exceeds the " ++ formatBytes MAX_FILE_SIZE ++ " limit."),
        none, true⟩
    else
      ⟨some f, none, none, false⟩

/-- JSON values as delivered by `response.json()`.  JavaScript numbers are
restricted to the integral values that actually occur in the protocol. -/
inductive Json where
  | null
  | bool (b : Bool)
  | num (n : Int)
  | str (s : String)
  | arr (elems : List Json)
  | obj (fields : List (String × Json))

/-- Property access `payload?.detail`: field lookup on an object,
`undefined` (`none`) on every other value. -/
def getField (j : Json) (key : String) : Option Json :=
  match j with
  | .obj fields => lookupField fields key
  | _ => none
where
  lookupField : List (String × Json) → String → Option Json
    | [], _ => none
    | (k, v) :: rest, key => if k = key then some v else lookupField rest key

/-- JavaScript truthiness of a JSON value (`if (x)`): `""`, `0`, `false`
and `null` are falsy; every object and array is truthy. -/
def jsTruthy : Json → Bool
  | .null => false
  | .bool b => b
  | .num n => n != 0
  | .str s => !s.isEmpty
  | .arr _ => true
  | .obj _ => true

/-- Escape a character for a JSON string literal (the backslash and quote
cases that can arise here). -/
def escapeChar (c : Char) : String :=
  if c = '"' then "\\\"" else if c = '\\' then "\\\\" else String.singleton c

/-- Escape a string for embedding in JSON output. -/
def escapeJson (s : String) : String := String.join (s.data.map escapeChar)

mutual

/-- JavaScript `JSON.stringify` on the modelled JSON values. -/
def jsonStringify : Json → String
  | .null => "null"
  | .bool b => if b then "true" else "false"
  | .num n => toString n
  | .str s => "\"" ++ escapeJson s ++ "\""
  | .arr elems => "[" ++ String.intercalate "," (stringifyElems elems) ++ "]"
  | .obj fields => "\x7b" ++ String.intercalate "," (stringifyFields fields) ++ "\x7d"

/-- Stringify the elements of a JSON array. -/
def stringifyElems : List Json → List String
  | [] => []
  | j :: rest => jsonStringify j :: stringifyElems rest

/-- Stringify the fields of a JSON object. -/
def stringifyFields : List (String × Json) → List String
  | [] => []
  | (k, v) :: rest =>
    ("\"" ++ escapeJson k ++ "\":" ++ jsonStringify v) :: stringifyFields rest

end

/-- The generic fallback message
`` `Failed to convert XBRL file (status ${response.status})` ``
(App.tsx line 133). -/
def genericMessage (status : Nat) : String :=
  "Failed to convert XBRL file (status " ++ toString status ++ ")"

/-- Error-body classification for a non-success response (App.tsx lines
132-156).  `contentType` is `response.headers.get("content-type") ?? ""`;
`jsonResult` / `textResult` are the outcomes of `response.json()` /
`response.text()`, `Except.error` meaning the parse threw (the `catch`
swallows it and keeps the generic message).  A string payload has no
`detail` property, so when its trimmed text is empty the generic message
survives. -/
def classifyError (status : Nat) (contentType : String)
    (jsonResult : Except Unit Json) (textResult : Except Unit String) : String :=
  let generic := genericMessage status
  if strContains contentType "application/json" then
    match jsonResult with
    | .error _ => generic
    | .ok payload =>
      match payload with
      | .str s => if (trimStr s).isEmpty then generic else trimStr s
      | p =>
        match getField p "detail" with
        | some d =>
          if jsTruthy d then
            match d with
            | .str s => s
            | _ => jsonStringify d
          else generic
        | none => generic
  else
    match textResult with
    | .error _ => generic
    | .ok t => if (trimStr t).isEmpty then generic else trimStr t

/-- The `fetch` response as observed by `handleSubmit`: status, the two
headers it reads, and the outcomes of the body-consuming operations it
may perform.  A transport-level failure of `blob()` carries the thrown
error's message. -/
structure Response where
  status : Nat
  contentType : Option String
  contentDisposition : Option String
  jsonResult : Except Unit Json
  textResult : Except Unit String
  blobResult : Except String Unit

/-- The flag `response.ok`: status in the 2xx range (per the Fetch standard,
`200 ≤ status < 300`). -/
def responseOk (r : Response) : Bool := 200 ≤ r.status && r.status < 300

/-- The download file name (App.tsx lines 160-164):
`Content-Disposition`, split on `"filename="`, element 1, all quote
characters removed; any missing piece or an empty result falls back to
`` `xbrl-export-${Date.now()}.xlsx` ``. -/
def downloadName (contentDisposition : Option String) (now : Nat) : String :=
  let fallback := "xbrl-export-" ++ toString now ++ ".xlsx"
  match contentDisposition with
  | none => fallback
  | some header =>
    match (splitOnStr header "filename=").get? 1 with
    | none => fallback
    | some fragment =>
      let name := removeAllChar '"' fragment
      if name.isEmpty then fallback else name

/-- The workflow states of the upload controller (App.tsx line 15). -/
inductive UploadState where
  | idle
  | uploading
  | success
  | error
deriving DecidableEq, Repr

/-- Observable outcome of one `handleSubmit` call: final `state`,
`error` and `successMessage` React states, whether the outbound `fetch`
was issued (and hence whether `setState("uploading")` ran first), and the
file name of a triggered save-as download, if any. -/
structure SubmitResult where
  state : UploadState
  error : Option String
  successMessage : Option String
  requestIssued : Bool
  enteredUploading : Bool
  download : Option String
deriving DecidableEq, Repr

/-- The handler `handleSubmit` (App.tsx lines 112-177).  `st` is the `state` when the
event fires; `selectedFile` the current selection; `fetchResult` the
outcome of the `fetch` call (`Except.error` = transport failure carrying
the thrown error's message); `now` is `Date.now()` at download time. -/
def handleSubmit (st : UploadState) (selectedFile : Option FileData)
    (fetchResult : Except String Response) (now : Nat) : SubmitResult :=
  match selectedFile with
  | none =>
    { state := st, error := some "Please choose an XBRL file before uploading.",
      successMessage := none, requestIssued := false, enteredUploading := false,
      download := none }
  | some _ =>
    match fetchResult with
    | .error msg =>
      { state := .error, error := some msg, successMessage := none,
        requestIssued := true, enteredUploading := true, download := none }
    | .ok r =>
      if responseOk r then
        match r.blobResult with
        | .error msg =>
          { state := .error, error := some msg, successMessage := none,
            requestIssued := true, enteredUploading := true, download := none }
        | .ok _ =>
          { state := .success, error := none,
            successMessage := some "Excel workbook downloaded successfully.",
            requestIssued := true, enteredUploading := true,
            download := some (downloadName r.contentDisposition now) }
      else
        { state := .error,
          error := some (classifyError r.status (r.contentType.getD "")
            r.jsonResult r.textResult),
          successMessage := none, requestIssued := true,
          enteredUploading := true, download := none }

/-- The submit button's `disabled` attribute (App.tsx line 315):
`disabled={state === "uploading"}`. -/
def submitDisabled (st : UploadState) : Bool :=
  match st with
  | .uploading => true
  | _ => false

/-- The submit path as reachable through the presentation layer: a
form-submit event is only delivered while the submit control is enabled,
so `handleSubmit` runs exactly when `submitDisabled` is false (`none`
means the event could not be triggered). -/
def gatedSubmit (st : UploadState) (selectedFile : Option FileData)
    (fetchResult : Except String Response) (now : Nat) : Option SubmitResult :=
  if submitDisabled st then none else some (handleSubmit st selectedFile fetchResult now)

/-- One element of the trail chain (App.tsx line 39):
`{ x, y, opacity }`. -/
structure TrailPoint where
  x : ℚ
  y : ℚ
  opacity : ℚ
deriving DecidableEq, Repr

/-- The pointer target `trailTargetRef.current` (App.tsx line 36):
`{ x, y, active }`. -/
structure Target where
  x : ℚ
  y : ℚ
  active : Bool
deriving DecidableEq, Repr

/-- The constant `TRAIL_LENGTH = 6` (App.tsx line 4). -/
def TRAIL_LENGTH : Nat := 6

/-- The opacity target of the loop (App.tsx line 61):
`active ? Math.max(0, 0.85 - index * 0.13) : 0`. -/
def opacityTarget (active : Bool) (index : Nat) : ℚ :=
  if active then max 0 (0.85 - (index : ℚ) * 0.13) else 0

/-- The body of the animation loop for one element (App.tsx lines 57-64):
`leadX`/`leadY` are the lead coordinates for this element, `index` its
position in the chain. -/
def stepPoint (active : Bool) (leadX leadY : ℚ) (index : Nat)
    (p : TrailPoint) : TrailPoint :=
  let ease : ℚ := if index = 0 then 0.2 else 0.24
  { x := p.x + (leadX - p.x) * ease,
    y := p.y + (leadY - p.y) * ease,
    opacity := p.opacity + (opacityTarget active index - p.opacity) * 0.18 }

/-- The `for` loop of `animate` (App.tsx lines 56-67): the updated point
becomes the lead of the next element within the same step. -/
def animateAux (active : Bool) (leadX leadY : ℚ) (index : Nat) :
    List TrailPoint → List TrailPoint
  | [] => []
  | p :: rest =>
    let q := stepPoint active leadX leadY index p
    q :: animateAux active q.x q.y (index + 1) rest

/-- One frame of the trail animation (App.tsx lines 50-70): the chain is
replaced wholesale by the points eased toward the pointer target. -/
def animate (t : Target) (chain : List TrailPoint) : List TrailPoint :=
  animateAux t.active t.x t.y 0 chain

/-- The initial chain (App.tsx lines 38-40): six all-zero points. -/
def initialChain : List TrailPoint :=
  List.replicate TRAIL_LENGTH ⟨0, 0, 0⟩

/-! ## Claim theorems -/

/-- C1: `submit()` with no SelectedFile fails immediately with exactly
"Please choose an XBRL file before uploading.", issues no outbound
request, and leaves UploadState unchanged (from `idle` it stays `idle`
and `uploading` is never entered). -/
theorem submit_without_file_noop (st : UploadState)
    (fetchResult : Except String Response) (now : Nat) :
    handleSubmit st none fetchResult now =
      { state := st, error := some "Please choose an XBRL file before uploading.",
        successMessage := none, requestIssued := false, enteredUploading := false,
        download := none } :=
  rfl

/-- C10: `choose(file)` with a valid extension and size exactly
`15 * 1024 * 1024` is accepted: SelectedFile is set to the file and no
error is raised (the size check rejects only strictly greater sizes). -/
theorem choose_at_limit_accepted (prev : Option FileData) (f : FileData)
    (hext : endsWithStr (toLowerStr f.name) ".xml" = true ∨
      endsWithStr (toLowerStr f.name) ".xbrl" = true)
    (hsize : f.size = 15 * 1024 * 1024) :
    handleFileChange prev (some f) = ⟨some f, none, none, false⟩ := by
  rcases hext with h | h <;>
    simp [handleFileChange, h, hsize, MAX_FILE_SIZE]

/-- Witness for C10 at `report.xml` of exactly 15 MiB. -/
theorem choose_at_limit_accepted_run :
    (endsWithStr (toLowerStr "report.xml") ".xml" = true ∨
      endsWithStr (toLowerStr "report.xml") ".xbrl" = true) ∧
    handleFileChange none (some ⟨"report.xml", 15 * 1024 * 1024⟩) =
      ⟨some ⟨"report.xml", 15 * 1024 * 1024⟩, none, none, false⟩ :=
  ⟨Or.inl (by decide),
    choose_at_limit_accepted none ⟨"report.xml", 15 * 1024 * 1024⟩
      (Or.inl (by decide)) rfl⟩

/-- C4 counterexample: with `good.xml` already selected, choosing
`report.pdf` raises the extension error but leaves the previously
selected file in place — SelectedFile is *not* unset afterward, contrary
to the claim. -/
theorem choose_invalid_ext_previous_file_retained :
    (handleFileChange (some ⟨"good.xml", 10⟩) (some ⟨"report.pdf", 100⟩)).error =
      some "Only .xml or .xbrl files are supported." ∧
    (handleFileChange (some ⟨"good.xml", 10⟩) (some ⟨"report.pdf", 100⟩)).selectedFile =
      some ⟨"good.xml", 10⟩ := by
  decide

/-- C4 amended: an invalid extension is rejected with exactly
"Only .xml or .xbrl files are supported.", the input control is reset and
the invalid choice is not stored — SelectedFile keeps whatever value it
had before (so from unset it stays unset); and any name ending in `.xml`
or `.xbrl` ignoring case passes the extension check (with a size within
the limit it is fully accepted). -/
theorem choose_extension_check :
    (∀ prev f, endsWithStr (toLowerStr f.name) ".xml" = false →
      endsWithStr (toLowerStr f.name) ".xbrl" = false →
      handleFileChange prev (some f) =
        ⟨prev, some "Only .xml or .xbrl files are supported.", none, true⟩) ∧
    (∀ prev f, (endsWithStr (toLowerStr f.name) ".xml" = true ∨
        endsWithStr (toLowerStr f.name) ".xbrl" = true) →
      (handleFileChange prev (some f)).error ≠
        some "Only .xml or .xbrl files are supported.") ∧
    (∀ prev f, (endsWithStr (toLowerStr f.name) ".xml" = true ∨
        endsWithStr (toLowerStr f.name) ".xbrl" = true) →
      f.size ≤ 15 * 1024 * 1024 →
      handleFileChange prev (some f) = ⟨some f, none, none, false⟩) := by
  refine ⟨fun prev f h1 h2 => ?_, fun prev f h => ?_, fun prev f h hsize => ?_⟩
  · simp [handleFileChange, h1, h2]
  · rcases h with h | h <;> simp [handleFileChange, h] <;> split <;> simp <;> decide
  · have hle : ¬ f.size > MAX_FILE_SIZE := by
      simp [MAX_FILE_SIZE]; omega
    rcases h with h | h <;> simp [handleFileChange, h, hle]

/-- Witness for the amended C4: `report.pdf` is rejected exactly as
stated, and `report.XBRL` (1 byte) passes the case-insensitive extension
check and is accepted. -/
theorem choose_extension_check_run :
    handleFileChange none (some ⟨"report.pdf", 100⟩) =
      ⟨none, some "Only .xml or .xbrl files are supported.", none, true⟩ ∧
    handleFileChange none (some ⟨"report.XBRL", 1⟩) =
      ⟨some ⟨"report.XBRL", 1⟩, none, none, false⟩ :=
  ⟨choose_extension_check.1 none ⟨"report.pdf", 100⟩ (by decide) (by decide),
    choose_extension_check.2.2 none ⟨"report.XBRL", 1⟩ (Or.inr (by decide))
      (by decide)⟩

/-- C5 counterexample: with `good.xml` already selected, choosing an
oversized `big.xml` (16 MiB) raises the size error but SelectedFile is
still set afterward (to the previously selected file), contrary to the
claim that it is left unset. -/
theorem choose_oversized_previous_file_retained :
    (handleFileChange (some ⟨"good.xml", 10⟩)
        (some ⟨"big.xml", 16 * 1024 * 1024⟩)).error =
      some "File exceeds the 15.00 MB limit." ∧
    (handleFileChange (some ⟨"good.xml", 10⟩)
        (some ⟨"big.xml", 16 * 1024 * 1024⟩)).selectedFile =
      some ⟨"good.xml", 10⟩ := by
  decide

/-- C5 amended: a file with valid extension and size strictly over
`15 * 1024 * 1024` bytes is rejected with an error message containing the
formatted limit "15.00 MB" (1024-based scaling, two-decimal precision),
the input control is reset, and the oversized file is not stored —
SelectedFile keeps whatever value it had before (so from unset it stays
unset). -/
theorem choose_oversized_rejected (prev : Option FileData) (f : FileData)
    (hext : endsWithStr (toLowerStr f.name) ".xml" = true ∨
      endsWithStr (toLowerStr f.name) ".xbrl" = true)
    (hsize : f.size > 15 * 1024 * 1024) :
    ∃ msg, handleFileChange prev (some f) = ⟨prev, some msg, none, true⟩ ∧
      strContains msg "15.00 MB" = true := by
  refine ⟨"File exceeds the " ++ formatBytes MAX_FILE_SIZE ++ " limit.", ?_, by decide⟩
  have hgt : f.size > MAX_FILE_SIZE := hsize
  rcases hext with h | h <;> simp [handleFileChange, h, hgt]

/-- Witness for the amended C5 at `report.xml` of 16 MiB with no prior
selection. -/
theorem choose_oversized_rejected_run :
    (endsWithStr (toLowerStr "report.xml") ".xml" = true ∨
      endsWithStr (toLowerStr "report.xml") ".xbrl" = true) ∧
    (16 * 1024 * 1024 > 15 * 1024 * 1024) ∧
    ∃ msg, handleFileChange none (some ⟨"report.xml", 16 * 1024 * 1024⟩) =
        ⟨none, some msg, none, true⟩ ∧
      strContains msg "15.00 MB" = true :=
  ⟨Or.inl (by decide), by omega,
    choose_oversized_rejected none ⟨"report.xml", 16 * 1024 * 1024⟩
      (Or.inl (by decide)) (by decide)⟩

/-- C2 counterexample: a 422 response declared JSON whose body is
`{"detail": ""}` has a `detail` field that *is* a string, so the claim
demands the message `""`; the code tests `payload?.detail` for JavaScript
truthiness, the empty string is falsy, and the generic templated message
survives instead. -/
theorem json_error_falsy_detail_not_surfaced :
    classifyError 422 "application/json"
        (.ok (.obj [("detail", .str "")])) (.ok "") =
      "Failed to convert XBRL file (status 422)" ∧
    classifyError 422 "application/json"
        (.ok (.obj [("detail", .str "")])) (.ok "") ≠ "" := by
  decide

/-- C2 amended: for a non-success response declared JSON whose body
parses, the surfaced message is: the payload's trimmed text if the
payload is a plain string with non-empty trimmed text; else, if the
payload's `detail` field is present and truthy (in particular a non-empty
string, or any non-string truthy value), the `detail` string itself resp.
its JSON serialization; in every remaining case — `detail` absent,
`detail` falsy (e.g. the empty string), or a plain-string payload whose
trimmed text is empty — the generic templated message
"Failed to convert XBRL file (status <code>)". -/
theorem json_error_classification (status : Nat) (ct : String)
    (tr : Except Unit String)
    (hct : strContains ct "application/json" = true) :
    (∀ s, trimStr s ≠ "" →
      classifyError status ct (.ok (.str s)) tr = trimStr s) ∧
    (∀ s, trimStr s = "" →
      classifyError status ct (.ok (.str s)) tr = genericMessage status) ∧
    (∀ fields s, getField (.obj fields) "detail" = some (.str s) → s ≠ "" →
      classifyError status ct (.ok (.obj fields)) tr = s) ∧
    (∀ fields d, getField (.obj fields) "detail" = some d →
      jsTruthy d = true → (∀ s, d ≠ .str s) →
      classifyError status ct (.ok (.obj fields)) tr = jsonStringify d) ∧
    (∀ fields, getField (.obj fields) "detail" = none →
      classifyError status ct (.ok (.obj fields)) tr = genericMessage status) ∧
    (∀ fields d, getField (.obj fields) "detail" = some d → jsTruthy d = false →
      classifyError status ct (.ok (.obj fields)) tr = genericMessage status) := by
  refine ⟨fun s hs => ?_, fun s hs => ?_, fun fields s hd hs => ?_,
    fun fields d hd ht hns => ?_, fun fields hd => ?_, fun fields d hd ht => ?_⟩
  · have : (trimStr s).isEmpty = false := by
      rw [Bool.eq_false_iff]
      exact fun h => hs ((String.isEmpty_iff _).mp h)
    simp [classifyError, hct, this]
  · have : (trimStr s).isEmpty = true := (String.isEmpty_iff _).mpr hs
    simp [classifyError, hct, this]
  · have hse : s.isEmpty = false := by
      rw [Bool.eq_false_iff]
      exact fun h => hs ((String.isEmpty_iff _).mp h)
    have ht : jsTruthy (.str s) = true := by simp [jsTruthy, hse]
    simp [classifyError, hct, hd, ht]
  · cases d with
    | str s => exact absurd rfl (hns s)
    | null => simp [jsTruthy] at ht
    | bool b => simp [classifyError, hct, hd, ht]
    | num n => simp [classifyError, hct, hd, ht]
    | arr elems => simp [classifyError, hct, hd, ht]
    | obj fields' => simp [classifyError, hct, hd, ht]
  · simp [classifyError, hct, hd]
  · simp [classifyError, hct, hd, ht]

/-- Witness for the amended C2: the spec's own example, status 422 with
body `{"detail": "bad taxonomy"}`, yields exactly "bad taxonomy". -/
theorem json_error_classification_run :
    strContains "application/json" "application/json" = true ∧
    classifyError 422 "application/json"
        (.ok (.obj [("detail", .str "bad taxonomy")])) (.ok "") = "bad taxonomy" :=
  ⟨by decide,
    (json_error_classification 422 "application/json" (.ok "") (by decide)).2.2.1
      [("detail", .str "bad taxonomy")] "bad taxonomy" rfl (by decide)⟩

/-- C3: for a non-success response not declared JSON, the surfaced
message is the trimmed body text when non-empty and otherwise the generic
templated message; and a failure thrown while reading/parsing the error
body itself (in either branch) is swallowed, the generic message is used,
and the controller still ends in the `error` state. -/
theorem plain_text_error_classification :
    (∀ status ct jr t, strContains ct "application/json" = false →
      trimStr t ≠ "" → classifyError status ct jr (.ok t) = trimStr t) ∧
    (∀ status ct jr t, strContains ct "application/json" = false →
      trimStr t = "" → classifyError status ct jr (.ok t) = genericMessage status) ∧
    (∀ st f r now, responseOk r = false →
      strContains (r.contentType.getD "") "application/json" = false →
      r.textResult = .error () →
      handleSubmit st (some f) (.ok r) now =
        ⟨.error, some (genericMessage r.status), none, true, true, none⟩) ∧
    (∀ st f r now, responseOk r = false →
      strContains (r.contentType.getD "") "application/json" = true →
      r.jsonResult = .error () →
      handleSubmit st (some f) (.ok r) now =
        ⟨.error, some (genericMessage r.status), none, true, true, none⟩) := by
  refine ⟨fun status ct jr t hct hs => ?_, fun status ct jr t hct hs => ?_,
    fun st f r now hok hct htext => ?_, fun st f r now hok hct hjson => ?_⟩
  · have : (trimStr t).isEmpty = false := by
      rw [Bool.eq_false_iff]
      exact fun h => hs ((String.isEmpty_iff _).mp h)
    simp [classifyError, hct, this]
  · have : (trimStr t).isEmpty = true := (String.isEmpty_iff _).mpr hs
    simp [classifyError, hct, this]
  · simp [handleSubmit, hok, classifyError, hct, htext]
  · simp [handleSubmit, hok, classifyError, hct, hjson]

/-- Witness for C3: the spec's example — status 500, plain-text body
"internal error" — surfaces exactly "internal error"; and a response
whose text body cannot be read ends in the `error` state with the generic
message. -/
theorem plain_text_error_classification_run :
    classifyError 500 "text/plain" (.error ()) (.ok "internal error") =
      trimStr "internal error" ∧
    handleSubmit .idle (some ⟨"a.xml", 1⟩)
        (.ok ⟨500, some "text/plain", none, .error (), .error (), .error "x"⟩) 0 =
      ⟨.error, some (genericMessage 500), none, true, true, none⟩ :=
  ⟨plain_text_error_classification.1 500 "text/plain" (.error ()) "internal error"
      (by decide) (by decide),
    plain_text_error_classification.2.2.1 .idle ⟨"a.xml", 1⟩
      ⟨500, some "text/plain", none, .error (), .error (), .error "x"⟩ 0
      (by decide) (by decide) rfl⟩

/-- C6: on a success (2xx) response whose payload is read, the controller
ends in `success` with the fixed confirmation message and triggers a
download named by the `filename=` fragment of `Content-Disposition` with
the quote characters stripped; when the header (or fragment) is absent
the name is synthesized as `xbrl-export-<timestamp>.xlsx`. -/
theorem submit_success_download (st : UploadState) (f : FileData)
    (r : Response) (now : Nat)
    (hok : responseOk r = true) (hblob : r.blobResult = .ok ()) :
    (handleSubmit st (some f) (.ok r) now).state = .success ∧
    (handleSubmit st (some f) (.ok r) now).successMessage =
      some "Excel workbook downloaded successfully." ∧
    (handleSubmit st (some f) (.ok r) now).download =
      some (downloadName r.contentDisposition now) ∧
    (∀ header fragment, r.contentDisposition = some header →
      (splitOnStr header "filename=")[1]? = some fragment →
      removeAllChar '"' fragment ≠ "" →
      (handleSubmit st (some f) (.ok r) now).download =
        some (removeAllChar '"' fragment)) ∧
    (r.contentDisposition = none →
      (handleSubmit st (some f) (.ok r) now).download =
        some ("xbrl-export-" ++ toString now ++ ".xlsx")) := by
  refine ⟨?_, ?_, ?_, fun header fragment hcd hfrag hname => ?_, fun hcd => ?_⟩
  · simp [handleSubmit, hok, hblob]
  · simp [handleSubmit, hok, hblob]
  · simp [handleSubmit, hok, hblob]
  · have : (removeAllChar '"' fragment).isEmpty = false := by
      rw [Bool.eq_false_iff]
      exact fun h => hname ((String.isEmpty_iff _).mp h)
    simp [handleSubmit, hok, hblob, downloadName, hcd, hfrag, this]
  · simp [handleSubmit, hok, hblob, downloadName, hcd]

/-- Witness for C6: a 2xx response with header
`Content-Disposition: attachment; filename="out.xlsx"` downloads a file
named exactly `out.xlsx` in the `success` state, and one with no such
header synthesizes `xbrl-export-1234.xlsx`. -/
theorem submit_success_download_run :
    (handleSubmit .idle (some ⟨"a.xml", 1⟩)
        (.ok ⟨200, none, some "attachment; filename=\"out.xlsx\"",
          .error (), .error (), .ok ()⟩) 0).state = .success ∧
    (handleSubmit .idle (some ⟨"a.xml", 1⟩)
        (.ok ⟨200, none, some "attachment; filename=\"out.xlsx\"",
          .error (), .error (), .ok ()⟩) 0).download = some "out.xlsx" ∧
    (handleSubmit .idle (some ⟨"a.xml", 1⟩)
        (.ok ⟨200, none, none, .error (), .error (), .ok ()⟩) 1234).download =
      some "xbrl-export-1234.xlsx" :=
  ⟨(submit_success_download .idle ⟨"a.xml", 1⟩
      ⟨200, none, some "attachment; filename=\"out.xlsx\"",
        .error (), .error (), .ok ()⟩ 0 (by decide) rfl).1,
    (submit_success_download .idle ⟨"a.xml", 1⟩
      ⟨200, none, some "attachment; filename=\"out.xlsx\"",
        .error (), .error (), .ok ()⟩ 0 (by decide) rfl).2.2.2.1
      "attachment; filename=\"out.xlsx\"" "\"out.xlsx\"" rfl (by decide) (by decide),
    (submit_success_download .idle ⟨"a.xml", 1⟩
      ⟨200, none, none, .error (), .error (), .ok ()⟩ 1234 (by decide) rfl).2.2.2.2
      rfl⟩

/-- C7 counterexample: `handleSubmit` has no guard on the current state —
invoked while the state is `uploading` with a file selected, it still
issues the outbound request (and passes through `uploading` again), so
the controller does not refuse re-entry by construction. -/
theorem submit_while_uploading_issues_request :
    (handleSubmit .uploading (some ⟨"a.xml", 1⟩)
        (.error "network down") 0).requestIssued = true ∧
    (handleSubmit .uploading (some ⟨"a.xml", 1⟩)
        (.error "network down") 0).enteredUploading = true := by
  decide

/-- C7 amended: re-entry of `uploading` is prevented cooperatively by the
presentation layer, not by the controller: the submit control is disabled
exactly while the state is `uploading`, so a submit event delivered only
while the control is enabled can never run `handleSubmit` from
`uploading` — under that gating no second request is issued while one is
in flight. -/
theorem uploading_reentry_gated_by_disabled_control :
    (∀ selectedFile fetchResult now,
      gatedSubmit UploadState.uploading selectedFile fetchResult now = none) ∧
    (∀ st, submitDisabled st = true ↔ st = UploadState.uploading) := by
  constructor
  · intro sel fr now
    rfl
  · intro st
    cases st <;> simp [submitDisabled]

/-- Witness for the amended C7: submitting from `uploading` through the
gated surface is impossible. -/
theorem uploading_reentry_gated_by_disabled_control_run :
    gatedSubmit UploadState.uploading (some ⟨"a.xml", 1⟩)
      (.error "network down") 0 = none :=
  uploading_reentry_gated_by_disabled_control.1 (some ⟨"a.xml", 1⟩)
    (.error "network down") 0

/-- C8: one animation step on the 6-element chain computes, for index i,
lead = pointer target for i = 0 and the *newly computed* position of
element i-1 for i > 0 (the chain propagates within the step); new
position = old + (lead − old) × ease with ease 0.20 at the head and 0.24
for followers; opacity target = max(0, 0.85 − i × 0.13) when active, 0
when inactive; new opacity = old + (target − old) × 0.18. -/
theorem animate_step_formulas (t : Target) (p0 p1 p2 p3 p4 p5 : TrailPoint) :
    animate t [p0, p1, p2, p3, p4, p5] =
      let tgt : Nat → ℚ := fun i =>
        if t.active then max 0 (0.85 - (i : ℚ) * 0.13) else 0
      let q0 : TrailPoint := ⟨p0.x + (t.x - p0.x) * 0.2,
        p0.y + (t.y - p0.y) * 0.2,
        p0.opacity + (tgt 0 - p0.opacity) * 0.18⟩
      let q1 : TrailPoint := ⟨p1.x + (q0.x - p1.x) * 0.24,
        p1.y + (q0.y - p1.y) * 0.24,
        p1.opacity + (tgt 1 - p1.opacity) * 0.18⟩
      let q2 : TrailPoint := ⟨p2.x + (q1.x - p2.x) * 0.24,
        p2.y + (q1.y - p2.y) * 0.24,
        p2.opacity + (tgt 2 - p2.opacity) * 0.18⟩
      let q3 : TrailPoint := ⟨p3.x + (q2.x - p3.x) * 0.24,
        p3.y + (q2.y - p3.y) * 0.24,
        p3.opacity + (tgt 3 - p3.opacity) * 0.18⟩
      let q4 : TrailPoint := ⟨p4.x + (q3.x - p4.x) * 0.24,
        p4.y + (q3.y - p4.y) * 0.24,
        p4.opacity + (tgt 4 - p4.opacity) * 0.18⟩
      let q5 : TrailPoint := ⟨p5.x + (q4.x - p5.x) * 0.24,
        p5.y + (q4.y - p5.y) * 0.24,
        p5.opacity + (tgt 5 - p5.opacity) * 0.18⟩
      [q0, q1, q2, q3, q4, q5] := by
  simp only [animate, animateAux, stepPoint, opacityTarget]
  norm_num

/-- Value `m` lies (inclusively) between `a` and `b`. -/
def betweenQ (a m b : ℚ) : Prop := (a ≤ m ∧ m ≤ b) ∨ (b ≤ m ∧ m ≤ a)

/-- Exponential easing with a factor in `[0, 1]` lands between the old
value and the lead. -/
theorem ease_between (old lead e : ℚ) (h0 : 0 ≤ e) (h1 : e ≤ 1) :
    betweenQ old (old + (lead - old) * e) lead := by
  rcases le_total old lead with h | h
  · exact Or.inl ⟨by nlinarith, by nlinarith⟩
  · exact Or.inr ⟨by nlinarith, by nlinarith⟩

/-- Exponential easing with a factor in `[0, 1]` never increases the
distance to the lead. -/
theorem ease_abs_le (old lead e : ℚ) (h0 : 0 ≤ e) (h1 : e ≤ 1) :
    |old + (lead - old) * e - lead| ≤ |old - lead| := by
  have hrw : old + (lead - old) * e - lead = (1 - e) * (old - lead) := by ring
  rw [hrw, abs_mul, abs_of_nonneg (by linarith : (0 : ℚ) ≤ 1 - e)]
  exact mul_le_of_le_one_left (abs_nonneg _) (by linarith)

/-- The x component of one step. -/
theorem stepPoint_x (a : Bool) (lx ly : ℚ) (i : Nat) (p : TrailPoint) :
    (stepPoint a lx ly i p).x =
      p.x + (lx - p.x) * (if i = 0 then 0.2 else 0.24) :=
  rfl

/-- The y component of one step. -/
theorem stepPoint_y (a : Bool) (lx ly : ℚ) (i : Nat) (p : TrailPoint) :
    (stepPoint a lx ly i p).y =
      p.y + (ly - p.y) * (if i = 0 then 0.2 else 0.24) :=
  rfl

/-- The head of the animation loop's output. -/
theorem animateAux_head (a : Bool) (lx ly : ℚ) (i : Nat) (p : TrailPoint)
    (pts : List TrailPoint) :
    (animateAux a lx ly i (p :: pts))[0]? = some (stepPoint a lx ly i p) := by
  simp [animateAux]

/-- Element `j+1` of the loop's output is the step applied to input
element `j+1` with the output element `j` as its lead. -/
theorem animateAux_succ (a : Bool) :
    ∀ (pts : List TrailPoint) (lx ly : ℚ) (i j : Nat) (p l : TrailPoint),
      (pts)[j + 1]? = some p → (animateAux a lx ly i pts)[j]? = some l →
      (animateAux a lx ly i pts)[j + 1]? =
        some (stepPoint a l.x l.y (i + j + 1) p) := by
  intro pts
  induction pts with
  | nil =>
    intro lx ly i j p l hp hl
    simp at hp
  | cons p0 rest ih =>
    intro lx ly i j p l hp hl
    cases j with
    | zero =>
      simp only [animateAux, List.getElem?_cons_succ] at hl ⊢
      have hl' : stepPoint a lx ly i p0 = l := by
        simpa using hl
      simp only [List.getElem?_cons_succ] at hp
      cases rest with
      | nil => simp at hp
      | cons r0 rest' =>
        have hp' : r0 = p := by simpa using hp
        subst hl' hp'
        simp [animateAux]
    | succ j' =>
      simp only [animateAux, List.getElem?_cons_succ] at hl hp ⊢
      have := ih (stepPoint a lx ly i p0).x (stepPoint a lx ly i p0).y
        (i + 1) j' p l hp hl
      have harith : i + 1 + j' + 1 = i + (j' + 1) + 1 := by omega
      rw [harith] at this
      exact this

/-- The opacity of output element `j` depends only on input element `j`
and its absolute index: it eases toward the opacity target with
factor 0.18. -/
theorem animateAux_opacity (a : Bool) :
    ∀ (pts : List TrailPoint) (lx ly : ℚ) (i j : Nat) (p : TrailPoint),
      (pts)[j]? = some p →
      ∃ q, (animateAux a lx ly i pts)[j]? = some q ∧
        q.opacity = p.opacity + (opacityTarget a (i + j) - p.opacity) * 0.18 := by
  intro pts
  induction pts with
  | nil =>
    intro lx ly i j p hp
    simp at hp
  | cons p0 rest ih =>
    intro lx ly i j p hp
    cases j with
    | zero =>
      have hp' : p0 = p := by simpa using hp
      subst hp'
      exact ⟨stepPoint a lx ly i p0, by simp [animateAux], by simp [stepPoint]⟩
    | succ j' =>
      simp only [List.getElem?_cons_succ] at hp
      obtain ⟨q, hq, hop⟩ := ih (stepPoint a lx ly i p0).x
        (stepPoint a lx ly i p0).y (i + 1) j' p hp
      refine ⟨q, by simpa [animateAux] using hq, ?_⟩
      have harith : i + 1 + j' = i + (j' + 1) := by omega
      rw [harith] at hop
      exact hop

/-- Closed form of element `i`'s opacity after `n` frames with a fixed
pointer target: the gap to the opacity target decays by the factor
`1 - 0.18 = 0.82` each frame. -/
theorem iterate_opacity (t : Target) (c0 : List TrailPoint) (i : Nat)
    (p0 : TrailPoint) (h : (c0)[i]? = some p0) :
    ∀ n, ∃ q, ((animate t)^[n] c0)[i]? = some q ∧
      q.opacity - opacityTarget t.active i =
        (0.82 : ℚ) ^ n * (p0.opacity - opacityTarget t.active i) := by
  intro n
  induction n with
  | zero => exact ⟨p0, by simpa using h, by simp⟩
  | succ n ih =>
    obtain ⟨q, hq, hval⟩ := ih
    obtain ⟨q', hq', hop⟩ :=
      animateAux_opacity t.active ((animate t)^[n] c0) t.x t.y 0 i q hq
    refine ⟨q', ?_, ?_⟩
    · rw [Function.iterate_succ_apply']
      exact hq'
    · have h0 : (0 : Nat) + i = i := by omega
      rw [h0] at hop
      have hstep : q'.opacity - opacityTarget t.active i =
          0.82 * (q.opacity - opacityTarget t.active i) := by
        rw [hop]; ring
      rw [hstep, hval]
      ring

/-- C9: each animation step moves every element's position between its
old position and its (within-step) lead, never increasing the distance to
that lead — no oscillation or overshoot; and with `active = true` held,
element `i`'s opacity converges to exactly `max 0 (0.85 − i × 0.13)`. -/
theorem trail_chain_stable (t : Target) (c : List TrailPoint) (i : Nat) :
    (∀ p q, (c)[0]? = some p → (animate t c)[0]? = some q →
      betweenQ p.x q.x t.x ∧ betweenQ p.y q.y t.y ∧
      |q.x - t.x| ≤ |p.x - t.x| ∧ |q.y - t.y| ≤ |p.y - t.y|) ∧
    (∀ j p q l, (c)[j + 1]? = some p → (animate t c)[j]? = some l →
      (animate t c)[j + 1]? = some q →
      betweenQ p.x q.x l.x ∧ betweenQ p.y q.y l.y ∧
      |q.x - l.x| ≤ |p.x - l.x| ∧ |q.y - l.y| ≤ |p.y - l.y|) ∧
    (t.active = true → ∀ p0, (c)[i]? = some p0 → ∀ ε : ℚ, 0 < ε →
      ∃ N, ∀ n, N ≤ n → ∀ q, ((animate t)^[n] c)[i]? = some q →
        |q.opacity - max 0 (0.85 - (i : ℚ) * 0.13)| < ε) := by
  refine ⟨?_, ?_, ?_⟩
  · intro p q hp hq
    cases c with
    | nil => simp at hp
    | cons c0 rest =>
      have hp' : c0 = p := by
        rw [List.getElem?_cons_zero] at hp
        exact Option.some.inj hp
      have hq0 : (animate t (c0 :: rest))[0]? =
          some (stepPoint t.active t.x t.y 0 c0) :=
        animateAux_head t.active t.x t.y 0 c0 rest
      rw [hq] at hq0
      have hq' : q = stepPoint t.active t.x t.y 0 c0 := Option.some.inj hq0
      have he : (if (0 : Nat) = 0 then (0.2 : ℚ) else 0.24) = 0.2 := by norm_num
      rw [hq', ← hp', stepPoint_x, stepPoint_y, he]
      exact ⟨ease_between c0.x t.x 0.2 (by norm_num) (by norm_num),
        ease_between c0.y t.y 0.2 (by norm_num) (by norm_num),
        ease_abs_le c0.x t.x 0.2 (by norm_num) (by norm_num),
        ease_abs_le c0.y t.y 0.2 (by norm_num) (by norm_num)⟩
  · intro j p q l hp hl hq
    have hstep := animateAux_succ t.active c t.x t.y 0 j p l hp hl
    have hstep' : (animate t c)[j + 1]? =
        some (stepPoint t.active l.x l.y (0 + j + 1) p) := hstep
    rw [hq] at hstep'
    have hq' : q = stepPoint t.active l.x l.y (0 + j + 1) p :=
      Option.some.inj hstep'
    have he : (if (0 + j + 1 : Nat) = 0 then (0.2 : ℚ) else 0.24) = 0.24 := by
      simp
    rw [hq', stepPoint_x, stepPoint_y, he]
    exact ⟨ease_between p.x l.x 0.24 (by norm_num) (by norm_num),
      ease_between p.y l.y 0.24 (by norm_num) (by norm_num),
      ease_abs_le p.x l.x 0.24 (by norm_num) (by norm_num),
      ease_abs_le p.y l.y 0.24 (by norm_num) (by norm_num)⟩
  · intro ha p0 hp0 ε hε
    have hT : opacityTarget t.active i = max 0 (0.85 - (i : ℚ) * 0.13) := by
      simp [opacityTarget, ha]
    set C := |p0.opacity - opacityTarget t.active i| with hC
    have hCnonneg : 0 ≤ C := abs_nonneg _
    obtain ⟨N, hN⟩ : ∃ N, (0.82 : ℚ) ^ N * C < ε := by
      rcases eq_or_lt_of_le hCnonneg with hzero | hpos
      · exact ⟨0, by rw [← hzero]; simpa using hε⟩
      · obtain ⟨N, hN⟩ := exists_pow_lt_of_lt_one (div_pos hε hpos)
          (by norm_num : (0.82 : ℚ) < 1)
        exact ⟨N, (lt_div_iff₀ hpos).mp hN⟩
    refine ⟨N, fun n hn q hq => ?_⟩
    obtain ⟨q', hq', hval⟩ := iterate_opacity t c i p0 hp0 n
    rw [hq] at hq'
    have hqq : q = q' := by simpa using hq'
    subst hqq
    rw [← hT]
    calc |q.opacity - opacityTarget t.active i|
        = (0.82 : ℚ) ^ n * C := by
          rw [hval, abs_mul,
            abs_of_nonneg (by positivity : (0 : ℚ) ≤ (0.82 : ℚ) ^ n), hC]
      _ ≤ (0.82 : ℚ) ^ N * C := by
          apply mul_le_mul_of_nonneg_right _ hCnonneg
          exact pow_le_pow_of_le_one (by norm_num) (by norm_num) hn
      _ < ε := hN

/-- Witness for C9 at a concrete pointer target, the initial all-zero
chain, head index and tolerance 1/10. -/
theorem trail_chain_stable_run :
    ∃ N, ∀ n, N ≤ n → ∀ q,
      ((animate ⟨5, 7, true⟩)^[n] initialChain)[0]? = some q →
      |q.opacity - max 0 (0.85 - ((0 : Nat) : ℚ) * 0.13)| < 1 / 10 :=
  (trail_chain_stable ⟨5, 7, true⟩ initialChain 0).2.2 rfl ⟨0, 0, 0⟩
    (by simp [initialChain, TRAIL_LENGTH, List.replicate])
    (1 / 10) (by norm_num)

end FRG

